import Mathlib

/-!
Verification of the markdown interview-question extractor
(`export_interviews_to_excel.py`).

The script is embedded shallowly: text is `List Char`, the regular
expressions of the source are embedded as token sequences interpreted by a
backtracking matcher (`matchToks`) that reproduces Python `re` semantics
(lazy `.*?` under DOTALL, greedy `\s*`, optional characters, lookahead
terminators `(?=\*\*|---|$)`), and the filesystem touched by the reference
resolver is an explicit parameter (`FS`).  Every definition follows the
corresponding Python function line by line; source line numbers are given
in the doc comments.
-/

namespace InterviewExport

/-- Python whitespace class `\s` over ASCII: the six characters recognised
by `str.strip` and `re` as whitespace. -/
def pyIsWs (c : Char) : Bool :=
  c = ' ' || c = '\t' || c = '\n' || c = '\r' || c = '\x0b' || c = '\x0c'

/-- Characters of a string literal. -/
def chars (s : String) : List Char := s.toList

/-- Python `str.strip()`: drop whitespace from both ends. -/
def pyStrip (cs : List Char) : List Char :=
  ((cs.dropWhile pyIsWs).reverse.dropWhile pyIsWs).reverse

/-- Python `str.lower()` (ASCII). -/
def pyLower (cs : List Char) : List Char := cs.map Char.toLower

/-- Python `needle in hay` substring test. -/
def containsSub : List Char → List Char → Bool
  | hay, needle =>
    needle.isPrefixOf hay ||
      match hay with
      | [] => false
      | _ :: t => containsSub t needle

/-- Python `'\n'.join` / `sep.join` on a list of strings. -/
def pyJoin (sep : List Char) : List (List Char) → List Char
  | [] => []
  | [l] => l
  | l :: ls => l ++ sep ++ pyJoin sep ls

/-- Python `str.split(c)` (no maxsplit): split at every occurrence of `c`;
always returns at least one piece. -/
def splitC (c : Char) : List Char → List (List Char)
  | [] => [[]]
  | a :: rest =>
    if a = c then [] :: splitC c rest
    else
      match splitC c rest with
      | [] => [[a]]
      | l :: ls => (a :: l) :: ls

/-- `re.match(r'^\d+', s)` as a Boolean: the string begins with a digit. -/
def startsWithDigit : List Char → Bool
  | [] => false
  | c :: _ => c.isDigit

/-!
### A miniature backtracking matcher for the source's regular expressions

Each pattern of the source is a sequence of tokens followed by a single
capturing group; the group is handled by an explicit continuation so that
the matcher backtracks through the prefix exactly as Python `re` does.
-/

/-- Tokens of the embedded regular expressions.  `lit` is a literal,
`litCI` a case-insensitive literal (stored lowercase), `dotLazy` is `.*?`
under `re.DOTALL`, `wsStar` is greedy `\s*`, `optCh cs` is a greedy
optional single character from `cs` (e.g. `s?`, `:?`, `[\.:]?`). -/
inductive Tok where
  | lit : List Char → Tok
  | litCI : List Char → Tok
  | dotLazy : Tok
  | wsStar : Tok
  | optCh : List Char → Tok

/-- Fuel weight of a token: enough for stepping through its literal. -/
def tokSize : Tok → Nat
  | .lit s => 1 + s.length
  | .litCI s => 1 + s.length
  | .dotLazy => 1
  | .wsStar => 1
  | .optCh _ => 1

/-- Fuel weight of a token sequence. -/
def toksSize (ts : List Tok) : Nat := (ts.map tokSize).sum

/-- Run the token sequence `ts` against `cs`, trying alternatives in the
priority order of a backtracking regex engine (lazy quantifiers shortest
first, greedy quantifiers longest first), and feed the first remainder
that the continuation `k` accepts.  `k` plays the capturing group.
The `fuel` argument makes the recursion structural so that the kernel can
evaluate it; every step strictly decreases `cs.length + toksSize ts`, so
the initial fuel chosen by `matchToks` is never exhausted and the `none`
of the fuel-out branch is unreachable. -/
def matchToksAux (k : List Char → Option (List Char × List Char)) :
    Nat → List Tok → List Char → Option (List Char × List Char)
  | 0, _, _ => none
  | _ + 1, [], cs => k cs
  | fuel + 1, .lit [] :: ts, cs => matchToksAux k fuel ts cs
  | fuel + 1, .lit (c :: s) :: ts, cs =>
    match cs with
    | [] => none
    | d :: cs2 => if d = c then matchToksAux k fuel (.lit s :: ts) cs2 else none
  | fuel + 1, .litCI [] :: ts, cs => matchToksAux k fuel ts cs
  | fuel + 1, .litCI (c :: s) :: ts, cs =>
    match cs with
    | [] => none
    | d :: cs2 => if d.toLower = c then matchToksAux k fuel (.litCI s :: ts) cs2 else none
  | fuel + 1, .dotLazy :: ts, cs =>
    match matchToksAux k fuel ts cs with
    | some r => some r
    | none =>
      match cs with
      | [] => none
      | _ :: cs2 => matchToksAux k fuel (.dotLazy :: ts) cs2
  | fuel + 1, .wsStar :: ts, cs =>
    match cs with
    | [] => matchToksAux k fuel ts []
    | c :: cs2 =>
      if pyIsWs c then
        match matchToksAux k fuel (.wsStar :: ts) cs2 with
        | some r => some r
        | none => matchToksAux k fuel ts (c :: cs2)
      else matchToksAux k fuel ts (c :: cs2)
  | fuel + 1, .optCh set :: ts, cs =>
    match cs with
    | [] => matchToksAux k fuel ts []
    | c :: cs2 =>
      if set.contains c then
        match matchToksAux k fuel ts cs2 with
        | some r => some r
        | none => matchToksAux k fuel ts (c :: cs2)
      else matchToksAux k fuel ts (c :: cs2)

/-- `matchToksAux` at its sufficient fuel. -/
def matchToks (k : List Char → Option (List Char × List Char))
    (ts : List Tok) (cs : List Char) : Option (List Char × List Char) :=
  matchToksAux k (cs.length + toksSize ts + 1) ts cs

/-- Lookahead terminator test for `(?=STOP1|STOP2|$)`: without
`re.MULTILINE`, `$` matches at the end of the string or just before a
final newline. -/
def atStop (stops : List (List Char)) (r : List Char) : Bool :=
  r.isEmpty || r == ['\n'] || stops.any (fun s => s.isPrefixOf r)

/-- Accumulate the lazily captured characters of `(.+?)(?=...|$)` until the
lookahead holds; always succeeds because `$` holds at the end. -/
def capLookAux (stops : List (List Char)) (acc : List Char) :
    List Char → List Char × List Char
  | [] => (acc.reverse, [])
  | c :: rs =>
    if atStop stops (c :: rs) then (acc.reverse, c :: rs)
    else capLookAux stops (c :: acc) rs

/-- The capturing group `(.+?)(?=...|$)`: at least one character, then the
shortest extension to a lookahead position. -/
def captureLook (stops : List (List Char)) : List Char → Option (List Char × List Char)
  | [] => none
  | c :: rs => some (capLookAux stops [c] rs)

/-- Accumulate the lazily captured characters of `(.*?)STOP`, consuming the
literal `stop` and returning the remainder after it; fails when `stop`
never occurs. -/
def capToAux (stop : List Char) (acc : List Char) :
    List Char → Option (List Char × List Char)
  | [] => none
  | c :: rs =>
    if stop.isPrefixOf (c :: rs) then some (acc.reverse, (c :: rs).drop stop.length)
    else capToAux stop (c :: acc) rs

/-- The capturing group `(.+?)STOP` (at least one character, `stop`
consumed). -/
def captureTo (stop : List Char) : List Char → Option (List Char × List Char)
  | [] => none
  | c :: rs => capToAux stop [c] rs

/-- The capturing group `(.*?)STOP` (possibly empty, `stop` consumed). -/
def capture0To (stop : List Char) (cs : List Char) : Option (List Char × List Char) :=
  if stop.isPrefixOf cs then some ([], cs.drop stop.length) else capToAux stop [] cs

/-- `re.search`: try the pattern at every start position from left to
right and return the first capture. -/
def reSearch (toks : List Tok) (k : List Char → Option (List Char × List Char)) :
    List Char → Option (List Char)
  | [] => (matchToks k toks []).map Prod.fst
  | c :: cs =>
    match matchToks k toks (c :: cs) with
    | some r => some r.1
    | none => reSearch toks k cs

/-- `re.search` also reporting the start position of the match, used to
combine the two branches of an embedded alternation with leftmost
priority. -/
def reSearchIdx (toks : List Tok) (k : List Char → Option (List Char × List Char)) :
    Nat → List Char → Option (Nat × List Char)
  | i, [] => (matchToks k toks []).map (fun r => (i, r.1))
  | i, c :: cs =>
    match matchToks k toks (c :: cs) with
    | some r => some (i, r.1)
    | none => reSearchIdx toks k (i + 1) cs

/-- `re.findall`: non-overlapping matches left to right, scanning resumes
after each match (advancing one character after an empty match, as
Python does).  Structural on `fuel`, which `reFindAll` seeds with
`cs.length + 1`; the scan position strictly advances at every step, so
the fuel-out branch is unreachable. -/
def reFindAllAux (toks : List Tok) (k : List Char → Option (List Char × List Char)) :
    Nat → List Char → List (List Char)
  | 0, _ => []
  | fuel + 1, cs =>
    match matchToks k toks cs with
    | some r =>
      if r.2.length < cs.length then r.1 :: reFindAllAux toks k fuel r.2
      else
        r.1 ::
          (match cs with
           | [] => []
           | _ :: cs2 => reFindAllAux toks k fuel cs2)
    | none =>
      match cs with
      | [] => []
      | _ :: cs2 => reFindAllAux toks k fuel cs2

/-- `reFindAllAux` at its sufficient fuel. -/
def reFindAll (toks : List Tok) (k : List Char → Option (List Char × List Char))
    (cs : List Char) : List (List Char) :=
  reFindAllAux toks k (cs.length + 1) cs

/-!
### The field-extraction patterns of `extract_questions_from_part`
(src lines 84–116) and of `extract_code_answer` (src lines 263–326)
-/

/-- The lookahead alternatives of `(?=\*\*|---|$)`. -/
def stdStops : List (List Char) := [chars "**", chars "---"]

/-- `re.search(r'\*\*"(.+?)"\*\*', qc, re.DOTALL)` (src line 84). -/
def searchQuoted (cs : List Char) : Option (List Char) :=
  reSearch [.lit (chars "**\"")] (captureTo (chars "\"**")) cs

/-- `re.search(r'\*\*Expected.*?Answer.*?Points?\*\*:\s*(.+?)(?=\*\*|---|$)',
qc, re.DOTALL)` (src line 88). -/
def searchExpected1 (cs : List Char) : Option (List Char) :=
  reSearch
    [.lit (chars "**Expected"), .dotLazy, .lit (chars "Answer"), .dotLazy,
     .lit (chars "Point"), .optCh ['s'], .lit (chars "**:"), .wsStar]
    (captureLook stdStops) cs

/-- `re.search(r'\*\*(?:Problem Statement|Expected Solution.*?)\*\*\s*(.+?)(?=\*\*|---|$)',
qc, re.DOTALL)` (src line 92): the two branches of the alternation are
searched separately and combined with leftmost-then-first-branch
priority. -/
def searchExpected2 (cs : List Char) : Option (List Char) :=
  let a := reSearchIdx [.lit (chars "**Problem Statement**"), .wsStar]
    (captureLook stdStops) 0 cs
  let b := reSearchIdx
    [.lit (chars "**Expected Solution"), .dotLazy, .lit (chars "**"), .wsStar]
    (captureLook stdStops) 0 cs
  match a, b with
  | some ra, some rb => if ra.1 ≤ rb.1 then some ra.2 else some rb.2
  | some ra, none => some ra.2
  | none, some rb => some rb.2
  | none, none => none

/-- `re.search(r'### (?:Problem Statement|Expected Solution.*?)\s*(.+?)(?=###|---|$)',
qc, re.DOTALL)` (src line 96). -/
def searchExpected3 (cs : List Char) : Option (List Char) :=
  let stops : List (List Char) := [chars "###", chars "---"]
  let a := reSearchIdx [.lit (chars "### Problem Statement"), .wsStar]
    (captureLook stops) 0 cs
  let b := reSearchIdx [.lit (chars "### Expected Solution"), .dotLazy, .wsStar]
    (captureLook stops) 0 cs
  match a, b with
  | some ra, some rb => if ra.1 ≤ rb.1 then some ra.2 else some rb.2
  | some ra, none => some ra.2
  | none, some rb => some rb.2
  | none, none => none

/-- `re.search(r'\*\*Follow-up.*?\*\*:\s*(.+?)(?=\*\*|---|$)', qc, re.DOTALL)`
(src line 101). -/
def searchFollowup (cs : List Char) : Option (List Char) :=
  reSearch [.lit (chars "**Follow-up"), .dotLazy, .lit (chars "**:"), .wsStar]
    (captureLook stdStops) cs

/-- `re.search(r'\*\*Reference\*\*:\s*(.+?)(?=\*\*|---|$)', qc, re.DOTALL)`
(src line 106). -/
def searchReference (cs : List Char) : Option (List Char) :=
  reSearch [.lit (chars "**Reference**:"), .wsStar] (captureLook stdStops) cs

/-- Scan for the first `minutes?\)` completion of the time pattern: returns
how many characters of the tail belong to the capture (`.*?minutes?`),
honouring that `.*?` (without DOTALL) cannot cross a newline. -/
def minuteScan : List Char → Option Nat
  | [] => none
  | c :: t =>
    if (chars "minute").isPrefixOf (c :: t) then
      match (c :: t).drop 6 with
      | 's' :: ')' :: _ => some 7
      | ')' :: _ => some 6
      | _ => if c = '\n' then none else (minuteScan t).map (· + 1)
    else if c = '\n' then none else (minuteScan t).map (· + 1)

/-- `re.search(r'\((\d+.*?minutes?)\)', question_title)` (src line 115). -/
def searchTime : List Char → Option (List Char)
  | [] => none
  | '(' :: rest =>
    (match rest with
     | [] => none
     | c :: _ =>
       if c.isDigit then
         let ds := rest.takeWhile Char.isDigit
         let after := rest.dropWhile Char.isDigit
         match minuteScan after with
         | some n => some (ds ++ after.take n)
         | none => searchTime rest
       else searchTime rest)
  | _ :: rest => searchTime rest

/-- Time allocation of a question title (src lines 115–116): the capture of
the `(N minutes)` annotation, or the placeholder. -/
def extract_time_allocation (question_title : List Char) : List Char :=
  (searchTime question_title).getD (chars "N/A")

/-!
### Reference-link extraction (`fetch_reference_content`, src line 171)

`re.search(r'\[.*?\]\(([^)]+)\)', reference_text)`: the bracketed part
`.*?` is lazy and cannot cross a newline (no DOTALL), while `[^)]+` can.
-/

/-- After `](`: match `([^)]+)\)`. -/
def parenScan : List Char → Option (List Char)
  | '(' :: rest =>
    let t := rest.takeWhile (fun c => c ≠ ')')
    if t ≠ [] ∧ rest.drop t.length ≠ [] then some t else none
  | _ => none

/-- Scan, after an opening `[`, for a `](` that completes the link pattern;
lazy `.*?` may extend past failing `]`s but not past a newline. -/
def bracketScan : List Char → Option (List Char)
  | [] => none
  | ']' :: rest =>
    (match parenScan rest with
     | some t => some t
     | none => bracketScan rest)
  | '\n' :: _ => none
  | _ :: rest => bracketScan rest

/-- The first markdown-link target in a citation string (src line 171). -/
def extractLinkTarget : List Char → Option (List Char)
  | [] => none
  | '[' :: rest =>
    (match bracketScan rest with
     | some t => some t
     | none => extractLinkTarget rest)
  | _ :: rest => extractLinkTarget rest

/-- Path normalisation of `fetch_reference_content` (src lines 177–183):
strip a single leading `../`, then drop any `#anchor` fragment. -/
def normalizeRefPath (target : List Char) : List Char :=
  let fp := if (chars "../").isPrefixOf target then target.drop 3 else target
  (splitC '#' fp).headD fp

/-!
### Anchor-based section extraction (`extract_section_by_anchor`,
src lines 208–238) and file summary (`create_file_summary`, src 240–261)
-/

/-- `\s*NUM` after the `#+` of the heading pattern: skip any whitespace
then require the literal `num`. -/
def skipWsLit (num : List Char) : List Char → Option (List Char)
  | [] => if num.isPrefixOf [] then some [] else none
  | c :: rest =>
    if num.isPrefixOf (c :: rest) then some ((c :: rest).drop num.length)
    else if pyIsWs c then skipWsLit num rest else none

/-- `rf'^#+\s*{num}[\.:]?\s*(.+?)$'` under `re.MULTILINE | re.IGNORECASE`
(src lines 218–219) matches starting at the line that begins `cs`:
leading `#`s, then — since `\s` also matches newlines — any whitespace,
the numeric token, and (backtracking through the optional `[\.:]` and
`\s*`) at least one character matchable by `.`, i.e. one that is not a
newline. -/
def headingMatch (num : List Char) (cs : List Char) : Bool :=
  let low := pyLower cs
  let r := low.dropWhile (fun c => c = '#')
  decide (r.length < low.length) &&
    match skipWsLit (pyLower num) r with
    | some rest => rest.any (fun c => c ≠ '\n')
    | none => false

/-- `re.match(r'^#+\s*\d+', line)` (src line 227): a numbered heading. -/
def isNumberedHeading (l : List Char) : Bool :=
  let r := l.dropWhile (fun c => c = '#')
  decide (r.length < l.length) &&
    match r.dropWhile pyIsWs with
    | c :: _ => c.isDigit
    | [] => false

/-- `re.match(r'^##[^#]', line)` (src line 229): exactly-level-2 heading. -/
def isLevel2Heading : List Char → Bool
  | '#' :: '#' :: c :: _ => c ≠ '#'
  | _ => false

/-- A line at which the captured section stops (src lines 227–230). -/
def sectionStop (l : List Char) : Bool :=
  isNumberedHeading l || isLevel2Heading l

/-- Return the suffix of the line list starting at the first line at whose
start the heading pattern matches — the model of `re.search` with the
`^`-anchored pattern followed by `content[match.start():].split('\n')`:
the pattern is tried against the text from each line start onward. -/
def findHeadingStart (num : List Char) : List (List Char) → Option (List (List Char))
  | [] => none
  | l :: ls =>
    if headingMatch num (pyJoin ['\n'] (l :: ls)) then some (l :: ls)
    else findHeadingStart num ls

/-- `extract_section_by_anchor(content, anchor)` (src lines 208–238):
for an anchor beginning with a digit, find the heading starting with the
anchor's leading numeric token and capture lines until a numbered heading
or an exactly-level-2 heading; the span is stripped. -/
def extract_section_by_anchor (content anchor : List Char) : Option (List Char) :=
  if startsWithDigit anchor then
    let num := (splitC '-' anchor).headD []
    match findHeadingStart num (splitC '\n' content) with
    | none => none
    | some [] => none
    | some (hd :: rest) =>
      some (pyStrip (pyJoin ['\n']
        (hd :: rest.takeWhile (fun l => !sectionStop l))))
  else none

/-- `re.match(r'^#+\s+', line)` (src line 254): any heading line. -/
def isHeadingLine (l : List Char) : Bool :=
  let r := l.dropWhile (fun c => c = '#')
  decide (r.length < l.length) &&
    match r with
    | c :: _ => pyIsWs c
    | [] => false

/-- `create_file_summary(content, file_path)` (src lines 240–261): the
first `# ` title among the first 10 lines, then the first 5 heading lines
of the whole file, prefixed with the file path; or a generic message. -/
def create_file_summary (content file_path : List Char) : List Char :=
  let lines := splitC '\n' content
  let titleL : List (List Char) :=
    match (lines.take 10).find? (fun l => (chars "# ").isPrefixOf l) with
    | some l => [l]
    | none => []
  let summary := titleL ++ (lines.filter isHeadingLine).take 5
  if summary ≠ [] then
    chars "Content from " ++ file_path ++ chars ":\n\n" ++ pyJoin ['\n'] summary
  else
    chars "Content available in " ++ file_path ++ chars " (no specific section extracted)"

/-!
### The reference resolver (`fetch_reference_content`, src lines 161–206)

The filesystem is explicit: `hasFile` models `Path.exists()` and
`readFile` models `open(...).read()`, whose failure (`.error`) models an
exception caught by the resolver's `try/except` boundary.
-/

/-- The filesystem seen by the resolver. -/
structure FS where
  hasFile : List Char → Bool
  readFile : List Char → Except (List Char) (List Char)

/-- The placeholder string. -/
def NA : List Char := chars "N/A"

/-- `fetch_reference_content(reference_text)` (src lines 161–206). -/
def fetch_reference_content (fs : FS) (reference_text : List Char) : List Char :=
  if reference_text = NA ∨ reference_text = [] then NA
  else
    match extractLinkTarget reference_text with
    | none => reference_text
    | some target =>
      let fp := normalizeRefPath target
      if fs.hasFile fp then
        match fs.readFile fp with
        | .error e => chars "Error fetching reference: " ++ e
        | .ok content =>
          match
            (if target.contains '#' then
              extract_section_by_anchor content ((splitC '#' target).getD 1 [])
            else none) with
          | some s => if s = [] then create_file_summary content fp else s
          | none => create_file_summary content fp
      else chars "Referenced file not found: " ++ fp

/-!
### Code-answer extraction (`extract_code_answer`, src lines 263–326)
-/

/-- The trigger phrases classifying a coding question (src lines 269–272),
pre-lowercased as the source lowercases both sides. -/
def codingIndicators : List (List Char) :=
  [chars "challenge:", chars "coding", chars "implementation", chars "algorithm",
   chars "write a", chars "implement", chars "create a go", chars "design and implement"]

/-- `is_coding_question` (src lines 274–275). -/
def isCodingQuestion (question_content : List Char) : Bool :=
  codingIndicators.any (fun ind => containsSub (pyLower question_content) ind)

/-- Go keywords used to classify untagged fenced blocks (src line 291). -/
def goKeywords : List (List Char) :=
  [chars "package", chars "import", chars "func", chars "type", chars "var",
   chars "const", chars "go ", chars "chan", chars "select"]

/-- `re.findall(r'```go\s*\n(.*?)\n```', qc, re.DOTALL)` (src line 284). -/
def findGoBlocks (cs : List Char) : List (List Char) :=
  reFindAll [.lit (chars "```go"), .wsStar, .lit (chars "\n")]
    (capture0To (chars "\n```")) cs

/-- `re.findall(r'```\s*\n(.*?)\n```', qc, re.DOTALL)` (src line 288). -/
def findGenericBlocks (cs : List Char) : List (List Char) :=
  reFindAll [.lit (chars "```"), .wsStar, .lit (chars "\n")]
    (capture0To (chars "\n```")) cs

/-- The four `solution_patterns` (src lines 296–301), each a `re.findall`
with `re.DOTALL | re.IGNORECASE`, concatenated in order (src lines
303–305). -/
def solutionBlocks (cs : List Char) : List (List Char) :=
  reFindAll
    [.litCI (chars "**expected"), .dotLazy, .litCI (chars "answer"), .dotLazy,
     .lit (chars "**"), .optCh [':'], .wsStar, .lit (chars "```"), .dotLazy,
     .lit (chars "\n")] (capture0To (chars "\n```")) cs ++
  reFindAll
    [.litCI (chars "**expected"), .dotLazy, .litCI (chars "solution"), .dotLazy,
     .lit (chars "**"), .optCh [':'], .wsStar, .lit (chars "```"), .dotLazy,
     .lit (chars "\n")] (capture0To (chars "\n```")) cs ++
  reFindAll
    [.litCI (chars "**solution"), .dotLazy, .lit (chars "**"), .optCh [':'],
     .wsStar, .lit (chars "```"), .dotLazy, .lit (chars "\n")]
    (capture0To (chars "\n```")) cs ++
  reFindAll
    [.litCI (chars "### expected solution structure"), .wsStar,
     .lit (chars "```"), .dotLazy, .lit (chars "\n")]
    (capture0To (chars "\n```")) cs

/-- The collected snippets in discovery order (src lines 281–305). -/
def collectedBlocks (qc : List Char) : List (List Char) :=
  findGoBlocks qc ++
    (findGenericBlocks qc).filter (fun b => goKeywords.any (fun kw => containsSub b kw)) ++
    solutionBlocks qc

/-- The cleaning filter of src lines 309–314: strip each block and keep it
only when non-empty and of more than 20 characters. -/
def cleanedBlocks (blocks : List (List Char)) : List (List Char) :=
  blocks.filterMap (fun b =>
    let c := pyStrip b
    if c ≠ [] ∧ 20 < c.length then some c else none)

/-- `re.search(r'\*\*Expected.*?Code.*?Example.*?\*\*:?\s*(.+?)(?=\*\*|---|$)',
qc, re.DOTALL | re.IGNORECASE)` (src line 321). -/
def searchCodeExample (cs : List Char) : Option (List Char) :=
  reSearch
    [.litCI (chars "**expected"), .dotLazy, .litCI (chars "code"), .dotLazy,
     .litCI (chars "example"), .dotLazy, .lit (chars "**"), .optCh [':'], .wsStar]
    (captureLook stdStops) cs

/-- The separator joining kept snippets (src line 317). -/
def codeSep : List Char := chars "\n\n--- CODE BLOCK ---\n\n"

/-- `extract_code_answer(question_content)` (src lines 263–326). -/
def extract_code_answer (question_content : List Char) : List Char :=
  if question_content = [] then []
  else if !isCodingQuestion question_content then []
  else
    let cleaned := cleanedBlocks (collectedBlocks question_content)
    if cleaned ≠ [] then pyJoin codeSep cleaned
    else
      match searchCodeExample question_content with
      | some m => pyStrip m
      | none => []

/-!
### Section splitting (`extract_questions`, src lines 53–69, and
`extract_questions_from_part`, src lines 71–129)

`re.split` with a capturing whole-line pattern under `re.MULTILINE`
partitions the text at matching lines; the surrounding newlines stay with
the neighbouring segments.  The source then pairs each captured heading
with the following segment.
-/

/-- Collect, from a list of lines, the leading non-matching lines and, for
each matching line, the lines up to the next match. -/
def gatherSplit (p : List Char → Bool) :
    List (List Char) → List (List Char) × List (List Char × List (List Char))
  | [] => ([], [])
  | l :: ls =>
    let r := gatherSplit p ls
    if p l then ([], (l, r.1) :: r.2) else (l :: r.1, r.2)

/-- Rebuild the `re.split` segments: a segment between two matches keeps
the newline on both sides, the final segment only its leading newline. -/
def renderEntries : List (List Char × List (List Char)) → List (List Char × List Char)
  | [] => []
  | [(m, seg)] => [(m, pyJoin ['\n'] ([] :: seg))]
  | (m, seg) :: rest =>
    (m, ['\n'] ++ pyJoin ['\n'] seg ++ ['\n']) :: renderEntries rest

/-- The `(group(1), following segment)` pairs of
`re.split(r'^PAT$', content, flags=re.MULTILINE)` as consumed by the
source's `for i in range(1, len(parts), 2)` loops; `cap` recovers the
capturing group from the matched line. -/
def reSplitPairs (isHead : List Char → Bool) (cap : List Char → List Char)
    (content : List Char) : List (List Char × List Char) :=
  (renderEntries (gatherSplit isHead (splitC '\n' content)).2).map
    (fun p => (cap p.1, p.2))

/-- A line matched by `r'^## (Part \d+.*?)$'` (src line 58). -/
def isPartHeadingLine (l : List Char) : Bool :=
  (chars "## Part ").isPrefixOf l &&
    match l.drop 8 with
    | c :: _ => c.isDigit
    | [] => false

/-- A line matched by
`r'^### ((?:Question|Challenge|SQL Query|Database Schema Design|Scenario).*?)$'`
(src line 76). -/
def isQuestionHeadingLine (l : List Char) : Bool :=
  [chars "### Question", chars "### Challenge", chars "### SQL Query",
   chars "### Database Schema Design", chars "### Scenario"].any
    (fun p => p.isPrefixOf l)

/-- One extracted question (the dict appended at src lines 118–127). -/
structure QuestionRecord where
  part : List Char
  question_title : List Char
  question_text : List Char
  expected_answer : List Char
  followup : List Char
  reference_link : List Char
  reference_content : List Char
  code_answer : List Char
deriving DecidableEq

/-- The per-block body of the loop of `extract_questions_from_part`
(src lines 83–127).  The time allocation is also computed there (src
lines 115–116) but the source stores it in no field of the appended dict;
it is exposed here as `extract_time_allocation`. -/
def buildQuestion (fs : FS) (part_title question_title question_content : List Char) :
    QuestionRecord :=
  let reference_text := (searchReference question_content).elim NA pyStrip
  { part := part_title
    question_title := question_title
    question_text := (searchQuoted question_content).getD NA
    expected_answer :=
      match searchExpected1 question_content with
      | some m => pyStrip m
      | none =>
        match searchExpected2 question_content with
        | some m => pyStrip m
        | none =>
          match searchExpected3 question_content with
          | some m => pyStrip m
          | none => NA
    followup := (searchFollowup question_content).elim NA pyStrip
    reference_link := reference_text
    reference_content := fetch_reference_content fs reference_text
    code_answer := extract_code_answer question_content }

/-- `extract_questions_from_part(part_title, part_content)`
(src lines 71–129). -/
def extract_questions_from_part (fs : FS) (part_title part_content : List Char) :
    List QuestionRecord :=
  (reSplitPairs isQuestionHeadingLine (fun l => l.drop 4) part_content).map
    (fun p => buildQuestion fs part_title p.1 p.2)

/-- `extract_questions(content)` (src lines 53–69). -/
def extract_questions (fs : FS) (content : List Char) : List QuestionRecord :=
  (reSplitPairs isPartHeadingLine (fun l => l.drop 3) content).flatMap
    (fun p => extract_questions_from_part fs p.1 p.2)

/-!
### Helper lemmas and theorems about the embedded program
-/

/-- An append whose left part is non-empty is non-empty. -/
theorem ne_nil_append {α : Type} {l r : List α} (h : l ≠ []) : l ++ r ≠ [] := by
  cases l <;> simp_all

/-- The file summary is never the empty string. -/
theorem create_file_summary_ne_nil (content fp : List Char) :
    create_file_summary content fp ≠ [] := by
  dsimp only [create_file_summary]
  split
  · exact ne_nil_append (ne_nil_append (ne_nil_append (by decide)))
  · exact ne_nil_append (ne_nil_append (by decide))

/-- The trivial filesystem: no file exists, every read fails. -/
def emptyFS : FS := FS.mk (fun _ => false) (fun _ => .error [])

/-- A citation in which a link was found is neither the placeholder nor
empty (the resolver's first guard cannot have fired). -/
theorem link_some_guard {ref target : List Char}
    (h : extractLinkTarget ref = some target) : ¬(ref = NA ∨ ref = []) := by
  rintro (rfl | rfl)
  · rw [show extractLinkTarget NA = none from rfl] at h
    exact absurd h (by simp)
  · rw [show extractLinkTarget [] = none from rfl] at h
    exact absurd h (by simp)

/-- C1.  Reference resolution is total: for every citation string — the
placeholder "N/A", the empty string, prose without a bracketed link,
links to paths missing from the filesystem, anchors matching no heading,
and reads that fail (the modelled exception) — `fetch_reference_content`
returns a non-empty string.  Totality of the Lean function is the model
of "never raises past its boundary": every branch, including the
`.error` branch standing for a caught exception, produces a string. -/
theorem c1_reference_resolution_total (fs : FS) (ref : List Char) :
    fetch_reference_content fs ref ≠ [] := by
  unfold fetch_reference_content
  split
  · decide
  next hguard =>
    split
    · intro h
      exact hguard (Or.inr h)
    next target heq =>
      dsimp only
      split
      next hread =>
        split
        next e he => exact ne_nil_append (by decide)
        next content hok =>
          split
          next s hs =>
            split
            next => exact create_file_summary_ne_nil _ _
            next hne => exact hne
          next => exact create_file_summary_ne_nil _ _
      next => exact ne_nil_append (by decide)

/-- The resolver maps the placeholder to itself (src lines 163–164). -/
theorem fetch_na (fs : FS) : fetch_reference_content fs NA = NA := by
  unfold fetch_reference_content
  rw [if_pos (Or.inl rfl)]

/-- C2.  Every optional field whose label pattern fails to match defaults
to the placeholder "N/A" (never an absent value): question text, expected
answer (all three patterns failing), follow-up, reference link — whose
resolved content is then also "N/A" — and the time allocation computed
from the title (src lines 115–116; the source computes it per block but
stores it in no field of the record).  The last conjunct states that
extraction of the remaining blocks is unaffected: every split block
yields a record. -/
theorem c2_missing_field_defaults (fs : FS) (pt t b : List Char) :
    (searchQuoted b = none → (buildQuestion fs pt t b).question_text = NA)
    ∧ (searchExpected1 b = none → searchExpected2 b = none → searchExpected3 b = none →
        (buildQuestion fs pt t b).expected_answer = NA)
    ∧ (searchFollowup b = none → (buildQuestion fs pt t b).followup = NA)
    ∧ (searchReference b = none →
        (buildQuestion fs pt t b).reference_link = NA
        ∧ (buildQuestion fs pt t b).reference_content = NA)
    ∧ (searchTime t = none → extract_time_allocation t = NA)
    ∧ (extract_questions_from_part fs pt b).length
        = (reSplitPairs isQuestionHeadingLine (fun l => l.drop 4) b).length := by
  refine ⟨?_, ?_, ?_, ?_, ?_, ?_⟩
  · intro h
    simp [buildQuestion, h]
  · intro h1 h2 h3
    simp [buildQuestion, h1, h2, h3]
  · intro h
    simp [buildQuestion, h]
  · intro h
    refine ⟨by simp [buildQuestion, h], ?_⟩
    show fetch_reference_content fs ((searchReference b).elim NA pyStrip) = NA
    rw [h]
    exact fetch_na fs
  · intro h
    simp [extract_time_allocation, h, NA]
  · simp [extract_questions_from_part]

/-- Witness for C2 at a block containing none of the field labels. -/
theorem c2_missing_field_defaults_witness :
    (buildQuestion emptyFS (chars "Part 1: W") (chars "Question") (chars "a bare block")).question_text = NA
    ∧ (buildQuestion emptyFS (chars "Part 1: W") (chars "Question") (chars "a bare block")).expected_answer = NA
    ∧ (buildQuestion emptyFS (chars "Part 1: W") (chars "Question") (chars "a bare block")).followup = NA
    ∧ (buildQuestion emptyFS (chars "Part 1: W") (chars "Question") (chars "a bare block")).reference_link = NA
    ∧ (buildQuestion emptyFS (chars "Part 1: W") (chars "Question") (chars "a bare block")).reference_content = NA
    ∧ extract_time_allocation (chars "Question") = NA := by
  have h := c2_missing_field_defaults emptyFS (chars "Part 1: W") (chars "Question") (chars "a bare block")
  exact ⟨h.1 (by decide), h.2.1 (by decide) (by decide) (by decide), h.2.2.1 (by decide),
    (h.2.2.2.1 (by decide)).1, (h.2.2.2.1 (by decide)).2, h.2.2.2.2.1 (by decide)⟩

/-- C3.  A block containing none of the coding trigger phrases (as a
case-insensitive substring test, src lines 269–278) yields the empty
string as code answer — distinct from the "N/A" placeholder. -/
theorem c3_no_trigger_empty_code (qc : List Char)
    (h : isCodingQuestion qc = false) :
    extract_code_answer qc = [] ∧ extract_code_answer qc ≠ NA := by
  have he : extract_code_answer qc = [] := by
    unfold extract_code_answer
    split
    · rfl
    · rw [h]
      rfl
  exact ⟨he, by rw [he]; decide⟩

/-- Witness for C3 on a non-coding block. -/
theorem c3_no_trigger_empty_code_witness :
    extract_code_answer (chars "What is a slice?") = []
    ∧ extract_code_answer (chars "What is a slice?") ≠ NA :=
  c3_no_trigger_empty_code (chars "What is a slice?") (by decide)

/-- `splitC` always yields at least one piece. -/
theorem splitC_ne_nil (c : Char) (cs : List Char) : splitC c cs ≠ [] := by
  induction cs with
  | nil => simp [splitC]
  | cons a rest ih =>
    simp only [splitC]
    split
    · simp
    · split
      · simp
      · simp

/-- Splitting after a separator-free prefix extends the first piece. -/
theorem splitC_append (c : Char) (l cs : List Char) (h : c ∉ l) :
    splitC c (l ++ cs) = (l ++ (splitC c cs).headD []) :: (splitC c cs).tail := by
  induction l with
  | nil =>
    simp only [List.nil_append]
    rcases hsc : splitC c cs with _ | ⟨x, xs⟩
    · exact absurd hsc (splitC_ne_nil c cs)
    · simp
  | cons a l ih =>
    have ha : ¬(a = c) := by
      intro e
      exact h (by simp [e])
    have h2 : c ∉ l := fun hm => h (List.mem_cons_of_mem _ hm)
    simp only [List.cons_append, splitC, if_neg ha, List.append_eq, ih h2]

/-- Splitting inverts joining for separator-free lines. -/
theorem splitC_pyJoin (c : Char) (L : List (List Char)) (hne : L ≠ [])
    (h : ∀ l ∈ L, c ∉ l) : splitC c (pyJoin [c] L) = L := by
  induction L with
  | nil => exact absurd rfl hne
  | cons l ls ih =>
    cases ls with
    | nil =>
      have hb := splitC_append c l [] (h l (by simp))
      simpa [splitC, pyJoin] using hb
    | cons l2 ls2 =>
      have hl : c ∉ l := h l (by simp)
      have hj : pyJoin [c] (l :: l2 :: ls2) = l ++ (c :: pyJoin [c] (l2 :: ls2)) := by
        simp [pyJoin]
      rw [hj, splitC_append c l _ hl]
      have hc : splitC c (c :: pyJoin [c] (l2 :: ls2))
          = [] :: splitC c (pyJoin [c] (l2 :: ls2)) := by
        simp [splitC]
      rw [hc, ih (by simp) (fun x hx => h x (by simp [hx]))]
      simp

/-- `takeWhile` keeps a satisfying prefix and stops at the first failing
element. -/
theorem takeWhile_prefix_stop {α : Type} (p : α → Bool) (l1 : List α) (a : α)
    (l2 : List α) (h1 : ∀ x ∈ l1, p x = true) (h2 : p a = false) :
    (l1 ++ a :: l2).takeWhile p = l1 := by
  induction l1 with
  | nil => simp [List.takeWhile_cons, h2]
  | cons x xs ih =>
    simp only [List.cons_append, List.takeWhile_cons, h1 x (by simp), if_true]
    rw [ih (fun y hy => h1 y (by simp [hy]))]

/-- C4 counterexample.  The claim says the captured span stops at a
heading of a higher level than the matched one.  Here the matched heading
`### 1. Intro` is level 3 and the later `# Big` is level 1 — higher — yet
the code (src lines 226–231) stops only at numbered headings
(`^#+\s*\d+`) or exactly-level-2 headings (`^##[^#]`), so `# Big` and the
text after it are kept in the span, contradicting the claim. -/
theorem c4_counterexample :
    extract_section_by_anchor (chars "### 1. Intro\nbody\n# Big\nmore") (chars "1-intro")
      = some (chars "### 1. Intro\nbody\n# Big\nmore")
    ∧ extract_section_by_anchor (chars "### 1. Intro\nbody\n# Big\nmore") (chars "1-intro")
      ≠ some (chars "### 1. Intro\nbody") := by
  constructor
  · decide
  · decide

/-- C4 amended.  Once the heading matching the anchor's leading numeric
token is found, the captured span runs from that heading and stops at the
first following line that is a numbered heading (`#`s, optional
whitespace, a digit) or an exactly-level-2 heading (`##` followed by a
non-`#`) — regardless of the relative level of the matched heading — and
the span is returned trimmed. -/
theorem c4_section_stop_amended (anchor hd stp : List Char)
    (body rest : List (List Char))
    (hdig : startsWithDigit anchor = true)
    (hhd : headingMatch ((splitC '-' anchor).headD [])
        (pyJoin ['\n'] (hd :: (body ++ stp :: rest))) = true)
    (hbody : ∀ l ∈ body, sectionStop l = false)
    (hstop : sectionStop stp = true)
    (hnl : ∀ l ∈ hd :: (body ++ stp :: rest), ('\n' : Char) ∉ l) :
    extract_section_by_anchor (pyJoin ['\n'] (hd :: (body ++ stp :: rest))) anchor
      = some (pyStrip (pyJoin ['\n'] (hd :: body))) := by
  unfold extract_section_by_anchor
  rw [hdig]
  simp only [if_true]
  rw [splitC_pyJoin '\n' _ (by simp) hnl]
  simp only [findHeadingStart, hhd, if_true]
  have ht : (body ++ stp :: rest).takeWhile (fun l => !sectionStop l) = body := by
    refine takeWhile_prefix_stop _ body stp rest (fun x hx => ?_) (by simp [hstop])
    simp [hbody x hx]
  rw [ht]

/-- Witness for the amended C4: a span stopped by a level-2 heading. -/
theorem c4_section_stop_amended_witness :
    extract_section_by_anchor (chars "### 1. Intro\nbody\n## Next\nx") (chars "1-intro")
      = some (chars "### 1. Intro\nbody") := by
  have h := c4_section_stop_amended (chars "1-intro") (chars "### 1. Intro")
    (chars "## Next") [chars "body"] [chars "x"]
    (by decide) (by decide) (by decide) (by decide) (by decide)
  exact h

/-- C5.  End-to-end example: the document `## Part 1: Basics` /
`### Question (5 minutes)` with a bold-quoted question and an
`**Expected Answer Points**:` line yields exactly one record with part
"Part 1: Basics", question text "What is a slice?", expected answer
"Mentions pointer, length, capacity.", code answer "" (and "N/A" for the
unlabelled follow-up and reference fields); the time allocation computed
from its title (src lines 115–116) is "5 minutes". -/
theorem c5_end_to_end :
    extract_questions emptyFS (chars "## Part 1: Basics\n### Question (5 minutes)\n**\"What is a slice?\"**\n**Expected Answer Points**: Mentions pointer, length, capacity.")
      = [{ part := chars "Part 1: Basics", question_title := chars "Question (5 minutes)",
           question_text := chars "What is a slice?",
           expected_answer := chars "Mentions pointer, length, capacity.",
           followup := NA, reference_link := NA, reference_content := NA,
           code_answer := [] }]
    ∧ extract_time_allocation (chars "Question (5 minutes)") = chars "5 minutes" := by
  constructor
  · decide
  · decide

/-- C6.  For a citation whose first bracketed-link target begins with
`../`, the resolver strips that prefix once and removes any `#`-fragment
(src lines 177–183); when the resulting path is not on the filesystem it
returns the descriptive not-found string naming that path
(src lines 186–188). -/
theorem c6_parent_prefix_not_found (fs : FS) (ref target : List Char)
    (h1 : extractLinkTarget ref = some target)
    (h2 : (chars "../").isPrefixOf target = true)
    (h3 : fs.hasFile (normalizeRefPath target) = false) :
    fetch_reference_content fs ref
      = chars "Referenced file not found: " ++ normalizeRefPath target
    ∧ normalizeRefPath target = (splitC '#' (target.drop 3)).headD (target.drop 3) := by
  constructor
  · unfold fetch_reference_content
    rw [if_neg (link_some_guard h1), h1]
    simp only [h3, Bool.false_eq_true, if_false]
  · simp [normalizeRefPath, h2]

/-- Witness for C6: the spec's own example, on the empty filesystem. -/
theorem c6_parent_prefix_not_found_witness :
    fetch_reference_content emptyFS (chars "See [golang/junior.md - Q1](../golang/junior.md#1-intro)")
      = chars "Referenced file not found: golang/junior.md"
    ∧ containsSub
        (fetch_reference_content emptyFS (chars "See [golang/junior.md - Q1](../golang/junior.md#1-intro)"))
        (chars "golang/junior.md") = true := by
  have h := c6_parent_prefix_not_found emptyFS
    (chars "See [golang/junior.md - Q1](../golang/junior.md#1-intro)")
    (chars "../golang/junior.md#1-intro") (by decide) (by decide) (by decide)
  constructor
  · rw [h.1]
    decide
  · rw [h.1]
    decide

/-- C7.  Anchor-based extraction is attempted only for anchors beginning
with a digit: for every other anchor it yields nothing, it also yields
nothing when no heading matches the numeric token, and in either case the
resolver falls back to the file summary. -/
theorem c7_anchor_gate :
    (∀ content anchor, startsWithDigit anchor = false →
      extract_section_by_anchor content anchor = none)
    ∧ (∀ content anchor,
        findHeadingStart ((splitC '-' anchor).headD []) (splitC '\n' content) = none →
        extract_section_by_anchor content anchor = none)
    ∧ (∀ (fs : FS) ref target content,
        extractLinkTarget ref = some target →
        target.contains '#' = true →
        fs.hasFile (normalizeRefPath target) = true →
        fs.readFile (normalizeRefPath target) = .ok content →
        extract_section_by_anchor content ((splitC '#' target).getD 1 []) = none →
        fetch_reference_content fs ref
          = create_file_summary content (normalizeRefPath target)) := by
  refine ⟨?_, ?_, ?_⟩
  · intro content anchor h
    unfold extract_section_by_anchor
    rw [h]
    simp
  · intro content anchor h
    unfold extract_section_by_anchor
    split
    · dsimp only
      rw [h]
    · rfl
  · intro fs ref target content h1 h2 h3 h4 h5
    unfold fetch_reference_content
    rw [if_neg (link_some_guard h1), h1]
    simp only [h3, if_true, h4, h2, h5]

/-- A one-file filesystem for the C7 witness. -/
def oneFileFS : FS :=
  FS.mk (fun p => p = chars "golang/junior.md")
    (fun p => if p = chars "golang/junior.md" then .ok (chars "# Title\nsome content")
      else .error [])

/-- Witness for C7: a non-digit anchor on an existing file falls back to
the file summary. -/
theorem c7_anchor_gate_witness :
    extract_section_by_anchor (chars "# Title\nsome content") (chars "intro") = none
    ∧ fetch_reference_content oneFileFS (chars "See [x](../golang/junior.md#intro)")
      = create_file_summary (chars "# Title\nsome content") (chars "golang/junior.md") := by
  refine ⟨c7_anchor_gate.1 _ _ (by decide), ?_⟩
  have h := c7_anchor_gate.2.2 oneFileFS (chars "See [x](../golang/junior.md#intro)")
    (chars "../golang/junior.md#intro") (chars "# Title\nsome content")
    (by decide) (by decide) (by decide) (by rfl)
    (c7_anchor_gate.1 _ _ (by decide))
  exact h

/-- C8.  A collected snippet whose trimmed length is fewer than 20
characters never survives the cleaning filter (src lines 309–314) and so
never appears among the snippets joined into the code answer
(src line 317). -/
theorem c8_short_snippets_excluded (blocks : List (List Char)) (b : List Char)
    (h : (pyStrip b).length < 20) : pyStrip b ∉ cleanedBlocks blocks := by
  intro hmem
  unfold cleanedBlocks at hmem
  rw [List.mem_filterMap] at hmem
  obtain ⟨a, -, ha⟩ := hmem
  dsimp only at ha
  split at ha
  next hc =>
    rw [Option.some.injEq] at ha
    rw [ha] at hc
    omega
  next => exact absurd ha (by simp)

/-- Witness for C8: a 5-character snippet is filtered out. -/
theorem c8_short_snippets_excluded_witness :
    pyStrip (chars "  short  ")
      ∉ cleanedBlocks [chars "  short  ", chars "a sufficiently long snippet of code"] :=
  c8_short_snippets_excluded _ _ (by decide)

/-- The record with its resolved reference content erased: all fields the
filesystem must not influence. -/
def eraseReferenceContent (q : QuestionRecord) : QuestionRecord :=
  { q with reference_content := [] }

/-- C9.  Every field other than `reference_content` is determined by the
document text alone: two runs over the same text against arbitrarily
different filesystems (missing, present or unreadable referenced files)
produce the same records up to the resolved reference content. -/
theorem c9_fields_independent_of_fs (fs1 fs2 : FS) (content : List Char) :
    (extract_questions fs1 content).map eraseReferenceContent
      = (extract_questions fs2 content).map eraseReferenceContent := by
  unfold extract_questions
  induction reSplitPairs isPartHeadingLine (fun l => l.drop 3) content with
  | nil => rfl
  | cons p ps ih =>
    simp only [List.flatMap_cons, List.map_append, ih]
    congr 1
    unfold extract_questions_from_part
    rw [List.map_map, List.map_map]
    exact List.map_congr_left (fun x _ => rfl)

/-- C10.  A collected snippet is kept only when its trimmed length is
strictly greater than 20 (src line 313), so the effective inclusion
threshold is 21 characters: a trimmed snippet of exactly 20 characters is
dropped, one of 21 characters is kept. -/
theorem c10_inclusion_threshold :
    (∀ (blocks : List (List Char)) (cb : List Char),
      cb ∈ cleanedBlocks blocks → 20 < cb.length)
    ∧ cleanedBlocks [chars "aaaaaaaaaaaaaaaaaaaa"] = []
    ∧ cleanedBlocks [chars "aaaaaaaaaaaaaaaaaaaaa"] = [chars "aaaaaaaaaaaaaaaaaaaaa"] := by
  refine ⟨?_, by decide, by decide⟩
  intro blocks cb hmem
  unfold cleanedBlocks at hmem
  rw [List.mem_filterMap] at hmem
  obtain ⟨a, -, ha⟩ := hmem
  dsimp only at ha
  split at ha
  next hc =>
    rw [Option.some.injEq] at ha
    rw [ha] at hc
    exact hc.2
  next => exact absurd ha (by simp)

/-- Witness for C10: a kept snippet really is longer than 20 characters. -/
theorem c10_inclusion_threshold_witness :
    20 < (chars "aaaaaaaaaaaaaaaaaaaaa").length :=
  c10_inclusion_threshold.1 [chars "aaaaaaaaaaaaaaaaaaaaa"]
    (chars "aaaaaaaaaaaaaaaaaaaaa") (by decide)

end InterviewExport
